import Mathlib

/-!
# Value conversions of `core/tuple` and the topology runtime of `core`

Namespace `Tuple` is a shallow embedding of `ToBool` and `ToInt`
(`typeconversions.go`) together with the parts of the Go language and
standard library they rest on:

* `Float64`: an IEEE 754 binary64 number given by its three bit fields, with
  the comparison operators of Go and the conversion `int64(x)`;
* `Time`: the instant held by a `time.Time`, with `IsZero` and `Unix`;
* `Value`: the interface `tuple.Value`, a type tag plus one accessor per
  kind, each accessor returning a Go pair `(result, error)`.

Go functions that return `(T, error)` are embedded as functions into
`T × Option Error`, where `none` is the `nil` error.

Namespace `Core` embeds the test box `panicBox` of
`default_topology_fail_test.go` and a sequential model of the topology
runtime that the test drives: the node registry, the wiring of inputs, the
node wrapper with its lifecycle states, and the delivery of tuples from a
source through boxes to sinks, one delivery at a time.
-/

set_option exponentiation.threshold 4096

namespace Tuple

/-! ## Machine integers -/

/-- Smallest `int64`, Go's `math.MinInt64`. -/
def MinInt64 : Int := -(2 ^ 63)

/-- Largest `int64`, Go's `math.MaxInt64`. -/
def MaxInt64 : Int := 2 ^ 63 - 1

/-- Membership of an integer in the range of `int64`. -/
def IsInt64 (i : Int) : Prop := MinInt64 ≤ i ∧ i ≤ MaxInt64

instance (i : Int) : Decidable (IsInt64 i) := by
  unfold IsInt64; exact inferInstance

/-- Go's `int64`: the integers from `math.MinInt64` to `math.MaxInt64`. -/
def Int64 : Type := { i : Int // IsInt64 i }

instance : DecidableEq Int64 := by
  unfold Int64; exact inferInstance

/-- Two's complement wrap-around of an integer into `int64`, as done by Go's
integer arithmetic on overflow. -/
def wrapInt64 (i : Int) : Int64 :=
  ⟨(i + 2 ^ 63) % 2 ^ 64 - 2 ^ 63, by
    have h0 : (0 : Int) ≤ (i + 2 ^ 63) % 2 ^ 64 := Int.emod_nonneg _ (by norm_num)
    have h1 : (i + 2 ^ 63) % 2 ^ 64 < (2 ^ 64 : Int) := Int.emod_lt_of_pos _ (by norm_num)
    unfold IsInt64 MinInt64 MaxInt64
    constructor <;> omega⟩

/-- The `int64` constant `0`. -/
def Int64.zero : Int64 := ⟨0, by decide⟩

/-- The `int64` constant `1`. -/
def Int64.one : Int64 := ⟨1, by decide⟩

/-! ## IEEE 754 binary64 -/

/-- A `float64` as its bit fields: sign bit, 11-bit biased exponent and
52-bit fraction. Every inhabitant is a `float64` and conversely. -/
structure Float64 where
  sign : Bool
  exp : Fin 2048
  frac : Fin (2 ^ 52)
deriving DecidableEq

namespace Float64

/-- Not-a-number: all exponent bits set, fraction non-zero. -/
def isNaN (x : Float64) : Bool := x.exp.val == 2047 && x.frac.val != 0

/-- Positive or negative infinity: all exponent bits set, fraction zero. -/
def isInf (x : Float64) : Bool := x.exp.val == 2047 && x.frac.val == 0

/-- Neither NaN nor an infinity. -/
def isFinite (x : Float64) : Bool := x.exp.val != 2047

/-- Magnitude of a finite `float64` in units of `2 ^ (-1074)`, the spacing
of the subnormal numbers: `frac` for a subnormal number (`exp = 0`), and
`(2 ^ 52 + frac) * 2 ^ (exp - 1)` for a normal one. -/
def magnitude (x : Float64) : Nat :=
  if x.exp.val = 0 then x.frac.val else (2 ^ 52 + x.frac.val) * 2 ^ (x.exp.val - 1)

/-- Value of a finite `float64` in units of `2 ^ (-1074)`: the number it
denotes is `scaled x / 2 ^ 1074`. Both zeros have `scaled = 0`. -/
def scaled (x : Float64) : Int :=
  if x.sign then -(x.magnitude : Int) else (x.magnitude : Int)

/-- Position on the extended line used to order non-NaN numbers: infinities
are placed beyond every finite value (the largest finite magnitude is below
`2 ^ 2098`). -/
def extended (x : Float64) : Int :=
  if x.isInf then (if x.sign then -((2 ^ 2100 : Nat) : Int) else ((2 ^ 2100 : Nat) : Int))
  else x.scaled

/-- Go's `x <= y` on `float64`: false when either operand is NaN. -/
def le (x y : Float64) : Bool :=
  !x.isNaN && !y.isNaN && decide (x.extended ≤ y.extended)

/-- Go's `x >= y` on `float64`. -/
def ge (x y : Float64) : Bool := le y x

/-- Go's `x == y` on `float64`: false when either operand is NaN, and
`+0 == -0`. -/
def eq (x y : Float64) : Bool :=
  !x.isNaN && !y.isNaN && decide (x.extended = y.extended)

/-- Go's `x != y` on `float64`, the negation of `==`. -/
def ne (x y : Float64) : Bool := !eq x y

/-- The constant `0.0`. -/
def zero : Float64 := ⟨false, 0, 0⟩

/-- The number one in units of `2 ^ (-1074)`. -/
def unit : Int := ((2 ^ 1074 : Nat) : Int)

/-- Whether the number is `+0` or `-0`. -/
def isZero (x : Float64) : Bool := x.exp.val == 0 && x.frac.val == 0

/-- The integer part of a finite `float64`, rounding toward zero. -/
def trunc (x : Float64) : Int := x.scaled.tdiv unit

/-- Go's conversion `int64(x)` of a non-constant `float64`. The fraction is
discarded (truncation toward zero). When the result type cannot represent
the value the conversion succeeds with an implementation-dependent value;
`arch` supplies that value for the platform at hand. -/
def toInt64 (arch : Float64 → Int) (x : Float64) : Int64 :=
  if h : x.isFinite ∧ IsInt64 x.trunc then ⟨x.trunc, h.2⟩ else wrapInt64 (arch x)

/-- Counts the binary digits of `n` by repeated halving, at most `fuel` of
them. -/
def bitLenAux : Nat → Nat → Nat
  | 0, _ => 0
  | fuel + 1, n => if n = 0 then 0 else bitLenAux fuel (n / 2) + 1

/-- Number of bits of a natural number below `2 ^ 1024`: `bitLen n = k`
when `2 ^ (k - 1) ≤ n < 2 ^ k`, and `bitLen 0 = 0`. -/
def bitLen (n : Nat) : Nat := bitLenAux 1024 n

/-- The `float64` nearest to `± n`, ties to the even significand (IEEE 754
round-to-nearest-even), for `n < 2 ^ 1024`. -/
def round (neg : Bool) (n : Nat) : Float64 :=
  if n = 0 then ⟨neg, 0, 0⟩
  else if bitLen n ≤ 53 then
    ⟨neg, Fin.ofNat (bitLen n + 1022),
      ⟨(n * 2 ^ (53 - bitLen n)) % 2 ^ 52, Nat.mod_lt _ (by norm_num)⟩⟩
  else
    let sh := bitLen n - 53
    let m := n / 2 ^ sh
    let r := n % 2 ^ sh
    let half := 2 ^ (sh - 1)
    let m1 := if half < r ∨ (r = half ∧ m % 2 = 1) then m + 1 else m
    if m1 = 2 ^ 53 then ⟨neg, Fin.ofNat (bitLen n + 1023), ⟨0, by norm_num⟩⟩
    else ⟨neg, Fin.ofNat (bitLen n + 1022), ⟨m1 % 2 ^ 52, Nat.mod_lt _ (by norm_num)⟩⟩

/-- Go's conversion `float64(i)` of an integer constant: the constant is
rounded to the precision of `float64` by the IEEE 754 round-to-even rule. -/
def ofInt (i : Int) : Float64 := round (decide (i < 0)) i.natAbs

end Float64

/-- Largest `float64` that `ToInt` converts: `float64(math.MaxInt64)`. -/
def MaxConvFloat64 : Float64 := Float64.ofInt MaxInt64

/-- Smallest `float64` that `ToInt` converts: `float64(math.MinInt64)`. -/
def MinConvFloat64 : Float64 := Float64.ofInt MinInt64

/-! ## `time.Time` -/

/-- Seconds from January 1, year 1 00:00:00 UTC to January 1, 1970
00:00:00 UTC: the constant `unixToInternal` of Go's package `time`. -/
def unixToInternal : Int := (1969 * 365 + 1969 / 4 - 1969 / 100 + 1969 / 400) * 86400

/-- The constant `internalToUnix` of Go's package `time`. -/
def internalToUnix : Int := -unixToInternal

/-- The instant held by a Go `time.Time`: the seconds elapsed since
January 1, year 1 00:00:00 UTC (what the method `sec` returns, an `int64`)
and the nanoseconds within that second (what `nsec` returns). The location
and the monotonic clock reading are left out: neither `IsZero` nor `Unix`
reads them. -/
structure Time where
  sec : Int64
  nsec : Fin 1000000000
deriving DecidableEq

namespace Time

/-- Go's `Time.IsZero`: whether the instant is the zero time, January 1,
year 1, 00:00:00 UTC. -/
def IsZero (t : Time) : Bool := t.sec.val == 0 && t.nsec.val == 0

/-- Go's `Time.Unix`: the seconds elapsed since January 1, 1970 UTC,
computed as `sec + internalToUnix` in `int64` arithmetic. -/
def Unix (t : Time) : Int64 := wrapInt64 (t.sec.val + internalToUnix)

/-- Go's `time.Unix(sec, nsec)` for `0 ≤ nsec < 10 ^ 9`: the instant `sec`
seconds and `nsec` nanoseconds after January 1, 1970 UTC. -/
def ofUnix (sec : Int64) (nsec : Fin 1000000000) : Time :=
  ⟨wrapInt64 (sec.val + unixToInternal), nsec⟩

/-- The zero value of `time.Time`. -/
def zeroTime : Time := ⟨Int64.zero, 0⟩

end Time

/-! ## Values -/

/-- Modelled from the spec: the type `tuple.TypeID` of the tags returned by
`Value.Type()`, declared outside the files at hand. The nine kinds are the
constants named in the `switch` statements of `ToBool` and `ToInt`;
`TypeUnknown` stands for every tag that is none of them. -/
inductive TypeID where
  | TypeUnknown
  | TypeNull
  | TypeBool
  | TypeInt
  | TypeFloat
  | TypeString
  | TypeBlob
  | TypeTimestamp
  | TypeArray
  | TypeMap
deriving DecidableEq

/-- Go `error` values met by the conversions: an error handed back by an
accessor of the value (identified by its message), and the errors built with
`fmt.Errorf` in `ToBool` and `ToInt`, one constructor per format string. -/
inductive Error where
  | accessor (msg : String)
  | cannotConvertToBool
  | cannotConvertToInt64
  | outOfBounds (val : Float64)
deriving DecidableEq

/-- Modelled from the spec: the interface `tuple.Value`, declared outside the
files at hand ("a tagged value exposing `Type() Kind` and per-kind
accessors"). A value is given by the result of `Type()` and of each accessor
called in `ToBool` and `ToInt`, an accessor result being the Go pair
`(result, error)` with `none` for `nil`. An array is a list of values and a
map a list of key-value entries, one entry per key. -/
inductive Value where
  | mk (type : TypeID)
      (asBool : Bool × Option Error)
      (asInt : Int64 × Option Error)
      (asFloat : Float64 × Option Error)
      (asString : String × Option Error)
      (asBlob : List (Fin 256) × Option Error)
      (asTimestamp : Time × Option Error)
      (asArray : List Value × Option Error)
      (asMap : List (String × Value) × Option Error)

namespace Value

/-- The method `Type()`. -/
def Type' : Value → TypeID
  | mk t _ _ _ _ _ _ _ _ => t

/-- The method `AsBool()`. -/
def AsBool : Value → Bool × Option Error
  | mk _ r _ _ _ _ _ _ _ => r

/-- The method `AsInt()`. -/
def AsInt : Value → Int64 × Option Error
  | mk _ _ r _ _ _ _ _ _ => r

/-- The method `AsFloat()`. -/
def AsFloat : Value → Float64 × Option Error
  | mk _ _ _ r _ _ _ _ _ => r

/-- The method `AsString()`. -/
def AsString : Value → String × Option Error
  | mk _ _ _ _ r _ _ _ _ => r

/-- The method `AsBlob()`. -/
def AsBlob : Value → List (Fin 256) × Option Error
  | mk _ _ _ _ _ r _ _ _ => r

/-- The method `AsTimestamp()`. -/
def AsTimestamp : Value → Time × Option Error
  | mk _ _ _ _ _ _ r _ _ => r

/-- The method `AsArray()`. -/
def AsArray : Value → List Value × Option Error
  | mk _ _ _ _ _ _ _ r _ => r

/-- The method `AsMap()`. -/
def AsMap : Value → List (String × Value) × Option Error
  | mk _ _ _ _ _ _ _ _ r => r


/-- Modelled from the spec: the error an accessor returns on a value of
another kind. -/
def castError : Error := Error.accessor "unsupported cast"

/-- Modelled from the spec: the value of kind Null; every accessor fails. -/
def null : Value :=
  mk .TypeNull (false, some castError) (Int64.zero, some castError)
    (Float64.zero, some castError) ("", some castError) ([], some castError)
    (Time.zeroTime, some castError) ([], some castError) ([], some castError)

/-- Modelled from the spec: the value of kind Bool holding `b`; only
`AsBool` succeeds. -/
def ofBool (b : Bool) : Value :=
  mk .TypeBool (b, none) (Int64.zero, some castError)
    (Float64.zero, some castError) ("", some castError) ([], some castError)
    (Time.zeroTime, some castError) ([], some castError) ([], some castError)

/-- Modelled from the spec: the value of kind Int holding `i`; only `AsInt`
succeeds. -/
def ofInt (i : Int64) : Value :=
  mk .TypeInt (false, some castError) (i, none)
    (Float64.zero, some castError) ("", some castError) ([], some castError)
    (Time.zeroTime, some castError) ([], some castError) ([], some castError)

/-- Modelled from the spec: the value of kind Float holding `f`; only
`AsFloat` succeeds. -/
def ofFloat (f : Float64) : Value :=
  mk .TypeFloat (false, some castError) (Int64.zero, some castError)
    (f, none) ("", some castError) ([], some castError)
    (Time.zeroTime, some castError) ([], some castError) ([], some castError)

/-- Modelled from the spec: the value of kind String holding `s`; only
`AsString` succeeds. -/
def ofString (s : String) : Value :=
  mk .TypeString (false, some castError) (Int64.zero, some castError)
    (Float64.zero, some castError) (s, none) ([], some castError)
    (Time.zeroTime, some castError) ([], some castError) ([], some castError)

/-- Modelled from the spec: the value of kind Blob holding `b`; only
`AsBlob` succeeds. -/
def ofBlob (b : List (Fin 256)) : Value :=
  mk .TypeBlob (false, some castError) (Int64.zero, some castError)
    (Float64.zero, some castError) ("", some castError) (b, none)
    (Time.zeroTime, some castError) ([], some castError) ([], some castError)

/-- Modelled from the spec: the value of kind Timestamp holding `t`; only
`AsTimestamp` succeeds. -/
def ofTimestamp (t : Time) : Value :=
  mk .TypeTimestamp (false, some castError) (Int64.zero, some castError)
    (Float64.zero, some castError) ("", some castError) ([], some castError)
    (t, none) ([], some castError) ([], some castError)

/-- Modelled from the spec: the value of kind Array holding `a`; only
`AsArray` succeeds. -/
def ofArray (a : List Value) : Value :=
  mk .TypeArray (false, some castError) (Int64.zero, some castError)
    (Float64.zero, some castError) ("", some castError) ([], some castError)
    (Time.zeroTime, some castError) (a, none) ([], some castError)

/-- Modelled from the spec: the value of kind Map holding `m`; only `AsMap`
succeeds. -/
def ofMap (m : List (String × Value)) : Value :=
  mk .TypeMap (false, some castError) (Int64.zero, some castError)
    (Float64.zero, some castError) ("", some castError) ([], some castError)
    (Time.zeroTime, some castError) ([], some castError) (m, none)

/-- A value is well formed when its tag is one of the nine kinds and the
accessor of that kind succeeds. -/
def WellFormed (v : Value) : Prop :=
  match v.Type' with
  | .TypeUnknown => False
  | .TypeNull => True
  | .TypeBool => v.AsBool.2 = none
  | .TypeInt => v.AsInt.2 = none
  | .TypeFloat => v.AsFloat.2 = none
  | .TypeString => v.AsString.2 = none
  | .TypeBlob => v.AsBlob.2 = none
  | .TypeTimestamp => v.AsTimestamp.2 = none
  | .TypeArray => v.AsArray.2 = none
  | .TypeMap => v.AsMap.2 = none

/-- The error returned by the accessor that matches the kind of the value
(`AsBool` for Bool, `AsInt` for Int, and so on); `none` when that accessor
succeeds and for a tag without an accessor. -/
def accessorError (v : Value) : Option Error :=
  match v.Type' with
  | .TypeUnknown => none
  | .TypeNull => none
  | .TypeBool => v.AsBool.2
  | .TypeInt => v.AsInt.2
  | .TypeFloat => v.AsFloat.2
  | .TypeString => v.AsString.2
  | .TypeBlob => v.AsBlob.2
  | .TypeTimestamp => v.AsTimestamp.2
  | .TypeArray => v.AsArray.2
  | .TypeMap => v.AsMap.2

/-- A value of kind String whose accessor `AsString` fails with the error
`e`, every other accessor failing with the cast error. -/
def brokenString (e : Error) : Value :=
  mk .TypeString (false, some castError) (Int64.zero, some castError)
    (Float64.zero, some castError) ("", some e) ([], some castError)
    (Time.zeroTime, some castError) ([], some castError) ([], some castError)

end Value

/-- The result of `int64(x)` on amd64 for a `float64` that `int64` cannot
represent: the instruction `CVTTSD2SQ` yields `0x8000000000000000`. -/
def archAMD64 : Float64 → Int := fun _ => MinInt64

/-- Go's `len` of a string: its number of bytes (the string being UTF-8
text). -/
def lenString (s : String) : Nat := s.utf8ByteSize

/-- `ToBool` converts a given `Value` to a bool, if possible. -/
def ToBool (v : Value) : Bool × Option Error :=
  let defaultValue := false
  match v.Type' with
  | .TypeNull => (false, none)
  | .TypeBool =>
    match v.AsBool with
    | (_, some e) => (defaultValue, some e)
    | (val, none) => (val, none)
  | .TypeInt =>
    match v.AsInt with
    | (_, some e) => (defaultValue, some e)
    | (val, none) => (decide (val.val ≠ 0), none)
  | .TypeFloat =>
    match v.AsFloat with
    | (_, some e) => (defaultValue, some e)
    | (val, none) => (Float64.ne val Float64.zero, none)
  | .TypeString =>
    match v.AsString with
    | (_, some e) => (defaultValue, some e)
    | (val, none) => (decide (lenString val > 0), none)
  | .TypeBlob =>
    match v.AsBlob with
    | (_, some e) => (defaultValue, some e)
    | (val, none) => (decide (val.length > 0), none)
  | .TypeTimestamp =>
    match v.AsTimestamp with
    | (_, some e) => (defaultValue, some e)
    | (val, none) => (!val.IsZero, none)
  | .TypeArray =>
    match v.AsArray with
    | (_, some e) => (defaultValue, some e)
    | (val, none) => (decide (val.length > 0), none)
  | .TypeMap =>
    match v.AsMap with
    | (_, some e) => (defaultValue, some e)
    | (val, none) => (decide (val.length > 0), none)
  | _ => (defaultValue, some Error.cannotConvertToBool)

/-- `ToInt` converts a given `Value` to an `int64`, if possible. The
parameter `arch` is the platform's result of `int64(x)` for a `float64` that
`int64` cannot represent (see `Float64.toInt64`). -/
def ToInt (arch : Float64 → Int) (v : Value) : Int64 × Option Error :=
  let defaultValue := Int64.zero
  match v.Type' with
  | .TypeNull => (Int64.zero, none)
  | .TypeBool =>
    match v.AsBool with
    | (_, some e) => (defaultValue, some e)
    | (val, none) => if val then (Int64.one, none) else (Int64.zero, none)
  | .TypeInt =>
    match v.AsInt with
    | (_, some e) => (defaultValue, some e)
    | (val, none) => (val, none)
  | .TypeFloat =>
    match v.AsFloat with
    | (_, some e) => (defaultValue, some e)
    | (val, none) =>
      if Float64.ge val MinConvFloat64 && Float64.le val MaxConvFloat64 then
        (Float64.toInt64 arch val, none)
      else
        (defaultValue, some (Error.outOfBounds val))
  | .TypeTimestamp =>
    match v.AsTimestamp with
    | (_, some e) => (defaultValue, some e)
    | (val, none) => (val.Unix, none)
  | _ => (defaultValue, some Error.cannotConvertToInt64)

end Tuple

namespace Core

/-! ## The test box `panicBox` (`default_topology_fail_test.go`) -/

/-- How a call of a Go function of result type `error` ends: it returns
`nil`, it returns an error, or it panics. -/
inductive Outcome where
  | ok
  | failed (msg : String)
  | panicked (msg : String)
deriving DecidableEq

/-- What a call of `Process(ctx, t, w)` does as seen from the caller: the
tuples it handed to the writer `w`, in order, and how the call ended. -/
structure Result (τ : Type) where
  written : List τ
  outcome : Outcome
deriving DecidableEq

/-- The struct `panicBox`. The embedded `ProxyBox` is kept as the state `σ`
of the wrapped box; the counters are Go `int`s, 64 bits wide. The mutex `m`
serialises the calls of `Process` and has no counterpart here, calls being
made one after the other. -/
structure panicBox (σ : Type) where
  ProxyBox : σ
  writeFailAt : Tuple.Int64
  writePanicAt : Tuple.Int64
  writeCnt : Tuple.Int64
deriving DecidableEq

/-- The method `panicBox.Process`. The parameter `proxy` is
`ProxyBox.Process`, the method of the wrapped box, declared outside the
files at hand. -/
def panicBox.Process {σ τ : Type} (proxy : σ → τ → σ × Result τ)
    (b : panicBox σ) (t : τ) : panicBox σ × Result τ :=
  let b1 : panicBox σ := { b with writeCnt := Tuple.wrapInt64 (b.writeCnt.val + 1) }
  if b1.writeCnt = b1.writePanicAt then
    (b1, ⟨[], Outcome.panicked "test failure via panic"⟩)
  else if b1.writeCnt = b1.writeFailAt then
    (b1, ⟨[], Outcome.failed "test failure"⟩)
  else
    ({ b1 with ProxyBox := (proxy b1.ProxyBox t).1 }, (proxy b1.ProxyBox t).2)

/-- The box after `Process` has been called on each tuple of the list in
turn, whatever the outcome of each call. -/
def panicBox.calls {σ τ : Type} (proxy : σ → τ → σ × Result τ) :
    panicBox σ → List τ → panicBox σ
  | b, [] => b
  | b, t :: ts => panicBox.calls proxy (panicBox.Process proxy b t).1 ts

/-! ## The topology runtime -/

/-- Modelled from the spec: the role of a node, one of Source, Box and Sink
(§3); the node types are declared outside the files at hand. -/
inductive Role where
  | Source
  | Box
  | Sink
deriving DecidableEq

/-- Modelled from the spec: the lifecycle states of a node in their
monotonic order `Created → Starting → Running → Stopping → Stopped` (§4.2).
The tests name the last one `TSStopped`. -/
inductive TopologyState where
  | TSCreated
  | TSStarting
  | TSRunning
  | TSStopping
  | TSStopped
deriving DecidableEq

/-- Position of a state in the monotonic order. -/
def TopologyState.rank : TopologyState → Nat
  | .TSCreated => 0
  | .TSStarting => 1
  | .TSRunning => 2
  | .TSStopping => 3
  | .TSStopped => 4

/-- Modelled from the spec: the configuration errors of the registry calls
(§4.1, §7): a name that is already used, an upstream that does not exist, an
input that is already registered, an input asked for by a source, and a
handle that belongs to no node. -/
inductive TopologyError where
  | nameAlreadyUsed (name : String)
  | unknownUpstream (name : String)
  | duplicateInput (name : String)
  | sourceInput (name : String)
  | unknownNode (name : String)
deriving DecidableEq

/-- Modelled from the spec: the message of a configuration error, what Go's
`err.Error()` returns. The spec fixes the words "name already used" and
"already" only. -/
def TopologyError.Error : TopologyError → String
  | .nameAlreadyUsed _ => "name already used"
  | .unknownUpstream _ => "upstream does not exist"
  | .duplicateInput _ => "upstream already connected"
  | .sourceInput _ => "a source has no upstream"
  | .unknownNode _ => "node does not exist"

/-- The message `s` contains the text `sub`. -/
def containsSubstring (s sub : String) : Prop := sub.data <:+: s.data

instance (s sub : String) : Decidable (containsSubstring s sub) := by
  unfold containsSubstring; exact inferInstance

/-- Modelled from the spec: the form of a name under which names are
compared, names being equal "under case-insensitive comparison" (§3) when
their lower-case forms are. -/
def nameKey (name : String) : String := String.mk (name.data.map Char.toLower)

/-- Modelled from the spec: a node of the topology (§3): its name, role and
state, the state of the wrapped box implementation (for a box), the tuples
collected so far (for a sink), the number of `Process` calls the wrapper has
made and the panic value it has retained. -/
structure Node (β τ : Type) where
  name : String
  role : Role
  state : TopologyState
  impl : Option β
  tuples : List τ
  processCalls : Nat
  panicValue : Option String
deriving DecidableEq

/-- Modelled from the spec: a topology (§3, §4.1): the registered nodes in
order of registration and the connections, each a pair of the upstream's and
the downstream's name keys. -/
structure Topology (β τ : Type) where
  nodes : List (Node β τ)
  edges : List (String × String)
deriving DecidableEq

namespace Topology

/-- The topology without nodes. -/
def empty {β τ : Type} : Topology β τ := ⟨[], []⟩

/-- The node registered under a name key, if any. -/
def lookup {β τ : Type} (tp : Topology β τ) (k : String) : Option (Node β τ) :=
  tp.nodes.find? (fun n => decide (nameKey n.name = k))

/-- Replaces the node registered under a name key. -/
def set {β τ : Type} (tp : Topology β τ) (k : String) (n : Node β τ) : Topology β τ :=
  { tp with nodes := tp.nodes.map (fun m => if nameKey m.name = k then n else m) }

/-- The name keys of the nodes subscribed to the node of key `k`. -/
def subscribers {β τ : Type} (tp : Topology β τ) (k : String) : List String :=
  (tp.edges.filter (fun e => decide (e.1 = k))).map Prod.snd

/-- Modelled from the spec: registration of a node (§4.1). It fails with a
"name already used" error if the name collides case-insensitively with the
name of any existing source, box or sink and leaves the topology as it is;
on success the node is created in its initial state. -/
def register {β τ : Type} (tp : Topology β τ) (role : Role) (name : String) (impl : Option β) :
    Topology β τ × Option TopologyError :=
  if (tp.lookup (nameKey name)).isSome then (tp, some (.nameAlreadyUsed name))
  else
    ({ tp with nodes := tp.nodes ++
        [⟨name, role, .TSCreated, impl, [], 0, none⟩] }, none)

/-- Modelled from the spec: `AddSource(name, ...)`. -/
def AddSource {β τ : Type} (tp : Topology β τ) (name : String) : Topology β τ × Option TopologyError :=
  tp.register .Source name none

/-- Modelled from the spec: `AddBox(name, implementation, ...)`. -/
def AddBox {β τ : Type} (tp : Topology β τ) (name : String) (b : β) :
    Topology β τ × Option TopologyError :=
  tp.register .Box name (some b)

/-- Modelled from the spec: `AddSink(name, ...)`; the sink collects the
tuples it receives. -/
def AddSink {β τ : Type} (tp : Topology β τ) (name : String) : Topology β τ × Option TopologyError :=
  tp.register .Sink name none

/-- Modelled from the spec: `handle.Input(upstreamName, ...)` called on the
handle of the node named `down` (§4.1). It fails if the upstream name does
not exist, if the calling node already has a connection from that upstream,
or if the calling node is a source; a failed call leaves the topology as it
is. -/
def Input {β τ : Type} (tp : Topology β τ) (down up : String) : Topology β τ × Option TopologyError :=
  match tp.lookup (nameKey up) with
  | none => (tp, some (.unknownUpstream up))
  | some _ =>
    if (nameKey up, nameKey down) ∈ tp.edges then (tp, some (.duplicateInput up))
    else
      match tp.lookup (nameKey down) with
      | none => (tp, some (.unknownNode down))
      | some d =>
        if d.role = .Source then (tp, some (.sourceInput down))
        else ({ tp with edges := tp.edges ++ [(nameKey up, nameKey down)] }, none)

/-- A registry call. -/
inductive Op (β : Type) where
  | addSource (name : String)
  | addBox (name : String) (b : β)
  | addSink (name : String)
  | input (down up : String)

/-- The effect of one registry call. -/
def apply {β τ : Type} (tp : Topology β τ) : Op β → Topology β τ × Option TopologyError
  | .addSource name => tp.AddSource name
  | .addBox name b => tp.AddBox name b
  | .addSink name => tp.AddSink name
  | .input down up => tp.Input down up

/-- The topology after a sequence of registry calls, failed ones included. -/
def run {β τ : Type} (tp : Topology β τ) (ops : List (Op β)) : Topology β τ :=
  ops.foldl (fun a op => (a.apply op).1) tp

end Topology

/-- Modelled from the spec: `StateHandle.Wait(target)` (§4.2) once the
deliveries at hand have run: it returns the state reached when that state is
at or beyond `target` in the monotonic order, and `none` stands for a call
that still blocks. -/
def Node.Wait {β τ : Type} (n : Node β τ) (target : TopologyState) : Option TopologyState :=
  if target.rank ≤ n.state.rank then some n.state else none

/-- Modelled from the spec: the failure transition of a node (§4.2): a
returned error and a recovered panic alike move the node to `Stopping` and
from there to `Stopped`; the panic value is retained. -/
def Node.fail {β τ : Type} (n : Node β τ) (panicValue : Option String) : Node β τ :=
  let stopping : Node β τ := { n with state := .TSStopping, panicValue := panicValue }
  { stopping with state := .TSStopped }

/-- Modelled from the spec: the node wrapper handing one tuple to its node
(§4.2, §4.3). Processing happens only while `Running`; a node in another
state accepts no tuple. A sink collects the tuple. For a box, `Process` is
invoked once; a returned error or a panic, which the wrapper recovers, stops
the node. The second component lists the tuples the box has written. -/
def Node.deliver {β τ : Type} (process : β → τ → β × Result τ) (n : Node β τ) (t : τ) :
    Node β τ × List τ :=
  if n.state = .TSRunning then
    match n.role, n.impl with
    | .Sink, _ => ({ n with tuples := n.tuples ++ [t] }, [])
    | .Box, some b =>
      let n1 : Node β τ :=
        { n with impl := some (process b t).1, processCalls := n.processCalls + 1 }
      match (process b t).2.outcome with
      | .ok => (n1, (process b t).2.written)
      | .failed _ => (n1.fail none, (process b t).2.written)
      | .panicked v => (n1.fail (some v), (process b t).2.written)
    | _, _ => (n, [])
  else (n, [])

/-- The node after the tuples of a list have been delivered to it in turn. -/
def Node.feed {β τ : Type} (process : β → τ → β × Result τ) :
    Node β τ → List τ → Node β τ
  | n, [] => n
  | n, t :: ts => Node.feed process (Node.deliver process n t).1 ts

/-- Modelled from the spec: the start of the topology (§4.2, §4.4): every
node in `Created` moves to `Starting` and, having no `Init` to run, on to
`Running`. -/
def Topology.start {β τ : Type} (tp : Topology β τ) : Topology β τ :=
  let starting : List (Node β τ) := tp.nodes.map (fun n =>
    if n.state = .TSCreated then { n with state := .TSStarting } else n)
  { tp with nodes := starting.map (fun n =>
      if n.state = .TSStarting then { n with state := .TSRunning } else n) }

/-- Modelled from the spec: delivery of a tuple to the node of key `k` and,
through the writer, of every tuple that node writes to each of its
subscribers in turn (§4.3). A tuple for a node that is not `Running` is
dropped without error. `fuel` bounds the length of the forwarding chains. -/
def Topology.deliver {β τ : Type} (process : β → τ → β × Result τ) :
    Nat → Topology β τ → String → τ → Topology β τ
  | 0, tp, _, _ => tp
  | fuel + 1, tp, k, t =>
    match tp.lookup k with
    | none => tp
    | some n =>
      (Node.deliver process n t).2.foldl
        (fun acc w =>
          (acc.subscribers k).foldl (fun a d => Topology.deliver process fuel a d w) acc)
        (tp.set k (Node.deliver process n t).1)

/-- Modelled from the spec: a running source emits one tuple, which is
delivered to each of its subscribers in turn (§4.3). The number of nodes
bounds the length of a forwarding chain in an acyclic topology. -/
def Topology.emit {β τ : Type} (process : β → τ → β × Result τ) (tp : Topology β τ)
    (source : String) (t : τ) : Topology β τ :=
  match tp.lookup (nameKey source) with
  | none => tp
  | some n =>
    if n.role = .Source ∧ n.state = .TSRunning then
      (tp.subscribers (nameKey source)).foldl
        (fun a d => Topology.deliver process tp.nodes.length a d t) tp
    else tp

/-- The source emits the tuples of a list in turn. -/
def Topology.emitAll {β τ : Type} (process : β → τ → β × Result τ) (tp : Topology β τ)
    (source : String) (ts : List τ) : Topology β τ :=
  ts.foldl (fun a t => Topology.emit process a source t) tp

/-- Modelled from the spec: the forwarding box (§4.3), whose `Process`
hands the input tuple to its writer; the wrapped box of the test. -/
def forwardBox {τ : Type} : Unit → τ → Unit × Result τ :=
  fun _ t => ((), ⟨[t], Outcome.ok⟩)

/-- The registry calls of the test: `source → box1 → sink`, the box being a
`panicBox` around a forwarding box, set to panic on its first call. -/
def scenarioOps : List (Topology.Op (panicBox Unit)) :=
  [.addSource "source",
   .addBox "box1" ⟨(), Tuple.Int64.zero, Tuple.Int64.one, Tuple.Int64.zero⟩,
   .input "box1" "source",
   .addSink "sink",
   .input "sink" "box1"]

/-- The topology of the test, started. -/
def scenario : Topology (panicBox Unit) Nat :=
  (Topology.empty.run scenarioOps).start

/-- The topology of the test after the source has emitted five tuples. -/
def scenarioPanicked : Topology (panicBox Unit) Nat :=
  scenario.emitAll (panicBox.Process forwardBox) "source" [1, 2, 3, 4, 5]

end Core

namespace Tuple

/-! ## Facts about the constants and the number model -/

theorem MaxConvFloat64_eq : MaxConvFloat64 = ⟨false, 1086, 0⟩ := by decide

theorem MinConvFloat64_eq : MinConvFloat64 = ⟨true, 1086, 0⟩ := by decide

theorem Float64.unit_pos : 0 < Float64.unit := by
  unfold Float64.unit; positivity

theorem MaxConvFloat64_extended : MaxConvFloat64.extended = 2 ^ 63 * Float64.unit := by
  rw [MaxConvFloat64_eq]; decide

theorem MinConvFloat64_extended : MinConvFloat64.extended = -(2 ^ 63 * Float64.unit) := by
  rw [MinConvFloat64_eq]; decide

theorem Float64.isNaN_of_isFinite (f : Float64) (h : f.isFinite = true) :
    f.isNaN = false := by
  simp [Float64.isFinite, Float64.isNaN] at *
  intro h1; exact absurd h1 h

theorem Float64.extended_of_isFinite (f : Float64) (h : f.isFinite = true) :
    f.extended = f.scaled := by
  simp [Float64.isFinite, Float64.isInf, Float64.extended] at *
  intro h1; exact absurd h1 h

/-- Truncating division by the unit maps the scaled `int64` range into the
`int64` range. -/
theorem Float64.tdiv_unit_isInt64 (s : Int) (h1 : MinInt64 * Float64.unit ≤ s)
    (h2 : s ≤ MaxInt64 * Float64.unit) : IsInt64 (s.tdiv Float64.unit) := by
  have hu := Float64.unit_pos
  unfold IsInt64
  rcases le_or_lt 0 s with hs | hs
  · rw [Int.tdiv_eq_ediv hs hu.le]
    constructor
    · have : 0 ≤ s / Float64.unit := Int.ediv_nonneg hs hu.le
      unfold MinInt64; omega
    · exact Int.ediv_le_of_le_mul hu h2
  · have hneg : s.tdiv Float64.unit = -((-s) / Float64.unit) := by
      rw [← Int.tdiv_eq_ediv (by omega) hu.le, Int.neg_tdiv, neg_neg]
    rw [hneg]
    constructor
    · have : (-s) / Float64.unit ≤ 2 ^ 63 := by
        apply Int.ediv_le_of_le_mul hu
        unfold MinInt64 at h1
        linarith
      unfold MinInt64; omega
    · have : 0 ≤ (-s) / Float64.unit := Int.ediv_nonneg (by omega) hu.le
      unfold MaxInt64; omega

/-- The `TypeFloat` case of `ToInt` once the accessor has succeeded. -/
theorem ToInt_float_eq (arch : Float64 → Int) (v : Value) (f : Float64)
    (hT : v.Type' = TypeID.TypeFloat) (hA : v.AsFloat = (f, none)) :
    ToInt arch v =
      if Float64.ge f MinConvFloat64 && Float64.le f MaxConvFloat64 then
        (Float64.toInt64 arch f, none)
      else (Int64.zero, some (Error.outOfBounds f)) := by
  simp [ToInt, hT, hA]

theorem lenString_pos_iff (s : String) : 0 < lenString s ↔ s ≠ "" := by
  obtain ⟨l⟩ := s
  cases l with
  | nil => simp [lenString, String.utf8ByteSize, String.utf8ByteSize.go]
  | cons c cs =>
    have hc := Char.utf8Size_pos c
    simp only [lenString, String.utf8ByteSize, String.utf8ByteSize.go]
    constructor
    · intro _ h; exact absurd (congrArg String.data h) (by simp)
    · intro _; omega

theorem Float64.magnitude_eq_zero_iff (f : Float64) :
    f.magnitude = 0 ↔ f.isZero = true := by
  unfold Float64.magnitude Float64.isZero
  by_cases he : f.exp.val = 0
  · simp [he]
  · have hp : 0 < (2 ^ 52 + f.frac.val) * 2 ^ (f.exp.val - 1) := by positivity
    simp [he]

theorem Float64.extended_eq_zero_iff (f : Float64) :
    f.extended = 0 ↔ f.isZero = true := by
  rw [← Float64.magnitude_eq_zero_iff]
  unfold Float64.extended Float64.scaled
  by_cases hi : f.isInf = true
  · have hm : f.magnitude ≠ 0 := by
      rw [Ne, Float64.magnitude_eq_zero_iff]
      simp only [Float64.isInf, Float64.isZero, Bool.and_eq_true, beq_iff_eq] at hi ⊢
      omega
    rw [if_pos hi]
    cases f.sign <;> simp [hm]
  · rw [if_neg hi]
    cases f.sign <;> simp

theorem Float64.isNaN_of_isZero (f : Float64) (h : f.isZero = true) : f.isNaN = false := by
  simp only [Float64.isZero, Float64.isNaN, Bool.and_eq_true, beq_iff_eq] at h ⊢
  simp [h.1]

theorem Float64.ne_zero_eq (f : Float64) : Float64.ne f Float64.zero = !f.isZero := by
  have hz : Float64.zero.extended = 0 := by decide
  have hzn : Float64.zero.isNaN = false := by decide
  unfold Float64.ne Float64.eq
  rw [hz, hzn]
  by_cases h : f.isZero = true
  · rw [Float64.isNaN_of_isZero f h, h]
    simp [(Float64.extended_eq_zero_iff f).2 h]
  · have h' : f.isZero = false := by simpa using h
    have he : ¬ f.extended = 0 := fun hc => h ((Float64.extended_eq_zero_iff f).1 hc)
    simp [h', he]

/-! ## The claims -/

/-- C1 (the code fails it): the float 9223372036854775808.0, that is
`2 ^ 63`, is what `float64(math.MaxInt64)` rounds to; it is finite and lies
above `math.MaxInt64`, yet `ToInt` returns a nil error together with the
platform's result of `int64` on that float, instead of an error. -/
theorem ToInt_float_two_pow_63_accepted (arch : Float64 → Int) :
    MaxConvFloat64 = ⟨false, 1086, 0⟩ ∧
    (⟨false, 1086, 0⟩ : Float64).isFinite = true ∧
    (⟨false, 1086, 0⟩ : Float64).scaled = 2 ^ 63 * Float64.unit ∧
    MaxInt64 * Float64.unit < (⟨false, 1086, 0⟩ : Float64).scaled ∧
    ToInt arch (Value.ofFloat ⟨false, 1086, 0⟩) =
      (wrapInt64 (arch ⟨false, 1086, 0⟩), none) := by
  refine ⟨by decide, by decide, by decide, by decide, ?_⟩
  rw [ToInt_float_eq arch (Value.ofFloat ⟨false, 1086, 0⟩) ⟨false, 1086, 0⟩ rfl rfl]
  have hc : (Float64.ge ⟨false, 1086, 0⟩ MinConvFloat64 &&
      Float64.le ⟨false, 1086, 0⟩ MaxConvFloat64) = true := by decide
  have hn : ¬ ((⟨false, 1086, 0⟩ : Float64).isFinite = true ∧
      IsInt64 (⟨false, 1086, 0⟩ : Float64).trunc) := by decide
  rw [if_pos hc, Float64.toInt64, dif_neg hn]

/-- C2: for every `int64` `i`, `ToInt` applied to a value of kind Int whose
accessor `AsInt` yields `i` returns `i` with a nil error. -/
theorem ToInt_int_identity (arch : Float64 → Int) (v : Value) (i : Int64)
    (hT : v.Type' = TypeID.TypeInt) (hA : v.AsInt = (i, none)) :
    ToInt arch v = (i, none) := by
  simp [ToInt, hT, hA]

theorem ToInt_int_identity_witness :
    ToInt archAMD64 (Value.ofInt ⟨MaxInt64, by decide⟩) = (⟨MaxInt64, by decide⟩, none) ∧
    ToInt archAMD64 (Value.ofInt ⟨MinInt64, by decide⟩) = (⟨MinInt64, by decide⟩, none) :=
  ⟨ToInt_int_identity archAMD64 (Value.ofInt ⟨MaxInt64, by decide⟩) ⟨MaxInt64, by decide⟩
      rfl rfl,
    ToInt_int_identity archAMD64 (Value.ofInt ⟨MinInt64, by decide⟩) ⟨MinInt64, by decide⟩
      rfl rfl⟩

/-- C3: for a value of kind String, Blob, Array or Map whose accessor of
that kind yields the content, `ToBool` returns a nil error and the result is
true exactly when the length of the content is greater than zero; for a
string that is exactly when it is not the empty string. -/
theorem ToBool_container_nonempty (v : Value) :
    (∀ s : String, v.Type' = TypeID.TypeString → v.AsString = (s, none) →
      ToBool v = (decide (lenString s > 0), none) ∧ ((ToBool v).1 = true ↔ s ≠ "")) ∧
    (∀ b : List (Fin 256), v.Type' = TypeID.TypeBlob → v.AsBlob = (b, none) →
      ToBool v = (decide (b.length > 0), none) ∧ ((ToBool v).1 = true ↔ b ≠ [])) ∧
    (∀ a : List Value, v.Type' = TypeID.TypeArray → v.AsArray = (a, none) →
      ToBool v = (decide (a.length > 0), none) ∧ ((ToBool v).1 = true ↔ a ≠ [])) ∧
    (∀ m : List (String × Value), v.Type' = TypeID.TypeMap → v.AsMap = (m, none) →
      ToBool v = (decide (m.length > 0), none) ∧ ((ToBool v).1 = true ↔ m ≠ [])) := by
  refine ⟨?_, ?_, ?_, ?_⟩
  · intro s hT hA
    have h : ToBool v = (decide (lenString s > 0), none) := by simp [ToBool, hT, hA]
    refine ⟨h, ?_⟩
    rw [h]; simpa using lenString_pos_iff s
  · intro b hT hA
    have h : ToBool v = (decide (b.length > 0), none) := by simp [ToBool, hT, hA]
    refine ⟨h, ?_⟩
    rw [h]; simp [List.length_pos]
  · intro a hT hA
    have h : ToBool v = (decide (a.length > 0), none) := by simp [ToBool, hT, hA]
    refine ⟨h, ?_⟩
    rw [h]; simp [List.length_pos]
  · intro m hT hA
    have h : ToBool v = (decide (m.length > 0), none) := by simp [ToBool, hT, hA]
    refine ⟨h, ?_⟩
    rw [h]; simp [List.length_pos]

theorem ToBool_container_nonempty_witness :
    ToBool (Value.ofString "42") = (true, none) ∧
    ToBool (Value.ofString "") = (false, none) ∧
    ToBool (Value.ofBlob [7]) = (true, none) ∧
    ToBool (Value.ofArray []) = (false, none) ∧
    ToBool (Value.ofMap [("k", Value.null)]) = (true, none) :=
  ⟨((ToBool_container_nonempty (Value.ofString "42")).1 "42" rfl rfl).1,
    ((ToBool_container_nonempty (Value.ofString "")).1 "" rfl rfl).1,
    ((ToBool_container_nonempty (Value.ofBlob [7])).2.1 [7] rfl rfl).1,
    ((ToBool_container_nonempty (Value.ofArray [])).2.2.1 [] rfl rfl).1,
    ((ToBool_container_nonempty (Value.ofMap [("k", Value.null)])).2.2.2
      [("k", Value.null)] rfl rfl).1⟩

/-- C4 (as stated it fails): the instant with Unix time 0 and zero
sub-second part, for which `ToInt` returns 0, is converted to true by
`ToBool`, so "false exactly at Unix time 0" does not hold. -/
theorem ToBool_timestamp_unix_epoch_true :
    (Time.ofUnix Int64.zero 0).Unix = Int64.zero ∧
    (Time.ofUnix Int64.zero 0).nsec = 0 ∧
    ToInt archAMD64 (Value.ofTimestamp (Time.ofUnix Int64.zero 0)) = (Int64.zero, none) ∧
    ToBool (Value.ofTimestamp (Time.ofUnix Int64.zero 0)) = (true, none) ∧
    ¬ ((ToBool (Value.ofTimestamp (Time.ofUnix Int64.zero 0))).1 = false ↔
        (Time.ofUnix Int64.zero 0).Unix = Int64.zero) := by
  decide

/-- C4 (amended): for a value of kind Timestamp whose accessor yields `t`,
`ToBool` returns a nil error and the negation of `t.IsZero()`: it is false
exactly when `t` is the zero time, January 1 of year 1, 00:00:00 UTC (zero
seconds and zero nanoseconds since then), and for that instant `ToInt`
returns -62135596800 with a nil error. -/
theorem ToBool_timestamp_isZero (arch : Float64 → Int) (v : Value) (t : Time)
    (hT : v.Type' = TypeID.TypeTimestamp) (hA : v.AsTimestamp = (t, none)) :
    ToBool v = (!t.IsZero, none) ∧
    ((ToBool v).1 = false ↔ t.sec.val = 0 ∧ t.nsec.val = 0) ∧
    ((ToBool v).1 = false →
      (ToInt arch v).1.val = -62135596800 ∧ (ToInt arch v).2 = none) := by
  have h : ToBool v = (!t.IsZero, none) := by simp [ToBool, hT, hA]
  have hI : ToInt arch v = (t.Unix, none) := by simp [ToInt, hT, hA]
  refine ⟨h, ?_, ?_⟩
  · rw [h]; simp [Time.IsZero]
  · rw [h, hI]
    intro hz
    have hs : t.sec.val = 0 := by
      simp [Time.IsZero] at hz; exact hz.1
    refine ⟨?_, rfl⟩
    show (wrapInt64 (t.sec.val + internalToUnix)).val = -62135596800
    rw [hs]; decide

theorem ToBool_timestamp_isZero_witness :
    ToBool (Value.ofTimestamp Time.zeroTime) = (false, none) ∧
    ((ToInt archAMD64 (Value.ofTimestamp Time.zeroTime)).1.val = -62135596800 ∧
      (ToInt archAMD64 (Value.ofTimestamp Time.zeroTime)).2 = none) :=
  ⟨(ToBool_timestamp_isZero archAMD64 (Value.ofTimestamp Time.zeroTime) Time.zeroTime
      rfl rfl).1,
    (ToBool_timestamp_isZero archAMD64 (Value.ofTimestamp Time.zeroTime) Time.zeroTime
      rfl rfl).2.2 (by decide)⟩

/-- C5: for a value of kind Float whose accessor yields a finite `f` with
`-2 ^ 63 ≤ f ≤ 2 ^ 63 - 1`, `ToInt` returns a nil error and the integer part
of `f`: the floor of `f` when `f ≥ 0` and the ceiling of `f` when `f < 0`
(`/` is the flooring division of integers, the divisor being positive). -/
theorem ToInt_float_in_range (arch : Float64 → Int) (v : Value) (f : Float64)
    (hT : v.Type' = TypeID.TypeFloat) (hA : v.AsFloat = (f, none))
    (hF : f.isFinite = true)
    (hlo : MinInt64 * Float64.unit ≤ f.scaled)
    (hhi : f.scaled ≤ MaxInt64 * Float64.unit) :
    (ToInt arch v).2 = none ∧
    (ToInt arch v).1.val = f.trunc ∧
    (0 ≤ f.scaled → (ToInt arch v).1.val = f.scaled / Float64.unit) ∧
    (f.scaled < 0 → (ToInt arch v).1.val = -((-f.scaled) / Float64.unit)) := by
  have hu := Float64.unit_pos
  have hnan := Float64.isNaN_of_isFinite f hF
  have hext := Float64.extended_of_isFinite f hF
  have hmaxn : MaxConvFloat64.isNaN = false := by decide
  have hminn : MinConvFloat64.isNaN = false := by decide
  have hle : Float64.le f MaxConvFloat64 = true := by
    simp only [Float64.le, hnan, hmaxn, hext, MaxConvFloat64_extended, Bool.not_false,
      Bool.true_and, decide_eq_true_eq]
    unfold MaxInt64 at hhi
    linarith
  have hge : Float64.ge f MinConvFloat64 = true := by
    simp only [Float64.ge, Float64.le, hnan, hminn, hext, MinConvFloat64_extended,
      Bool.not_false, Bool.true_and, decide_eq_true_eq]
    unfold MinInt64 at hlo
    linarith
  have hr : IsInt64 f.trunc := Float64.tdiv_unit_isInt64 f.scaled hlo hhi
  have hI : ToInt arch v = (⟨f.trunc, hr⟩, none) := by
    rw [ToInt_float_eq arch v f hT hA, hge, hle]
    simp [Float64.toInt64, hF, hr]
  rw [hI]
  refine ⟨rfl, rfl, ?_, ?_⟩
  · intro h0
    show f.scaled.tdiv Float64.unit = f.scaled / Float64.unit
    exact Int.tdiv_eq_ediv h0 hu.le
  · intro h0
    show f.scaled.tdiv Float64.unit = -((-f.scaled) / Float64.unit)
    rw [← Int.tdiv_eq_ediv (by omega) hu.le, Int.neg_tdiv, neg_neg]

theorem ToInt_float_in_range_witness :
    (ToInt archAMD64 (Value.ofFloat ⟨false, 1024, 0x7333333333333⟩)).1.val = 2 ∧
    (ToInt archAMD64 (Value.ofFloat ⟨true, 1024, 0x7333333333333⟩)).1.val = -2 :=
  ⟨(ToInt_float_in_range archAMD64 (Value.ofFloat ⟨false, 1024, 0x7333333333333⟩)
      ⟨false, 1024, 0x7333333333333⟩ rfl rfl (by decide) (by decide) (by decide)).2.1.trans
      (by decide),
    (ToInt_float_in_range archAMD64 (Value.ofFloat ⟨true, 1024, 0x7333333333333⟩)
      ⟨true, 1024, 0x7333333333333⟩ rfl rfl (by decide) (by decide) (by decide)).2.1.trans
      (by decide)⟩

/-- C6: for every value of kind String, Blob, Array or Map, whatever its
accessors return, `ToInt` fails: it returns 0 together with a non-nil error,
the "cannot convert" error of the default case. -/
theorem ToInt_container_fails (arch : Float64 → Int) (v : Value)
    (hT : v.Type' = TypeID.TypeString ∨ v.Type' = TypeID.TypeBlob ∨
      v.Type' = TypeID.TypeArray ∨ v.Type' = TypeID.TypeMap) :
    ToInt arch v = (Int64.zero, some Error.cannotConvertToInt64) ∧
    (ToInt arch v).2 ≠ none := by
  have h : ToInt arch v = (Int64.zero, some Error.cannotConvertToInt64) := by
    rcases hT with h | h | h | h <;> simp [ToInt, h]
  exact ⟨h, by rw [h]; simp⟩

theorem ToInt_container_fails_witness :
    ToInt archAMD64 (Value.ofString "42") = (Int64.zero, some Error.cannotConvertToInt64) ∧
    (ToInt archAMD64 (Value.ofString "42")).2 ≠ none :=
  ToInt_container_fails archAMD64 (Value.ofString "42") (Or.inl rfl)

/-- C7: `ToBool` never fails on a well-formed value: when the kind of the
value is one of Null, Bool, Int, Float, String, Blob, Timestamp, Array, Map
and the accessor of that kind succeeds, `ToBool` returns a nil error. -/
theorem ToBool_wellFormed_no_error (v : Value) (h : v.WellFormed) :
    (ToBool v).2 = none := by
  obtain ⟨t, ⟨b, eb⟩, ⟨i, ei⟩, ⟨f, ef⟩, ⟨s, es⟩, ⟨bl, ebl⟩, ⟨ts, ets⟩, ⟨a, ea⟩, ⟨m, em⟩⟩ := v
  cases t <;> simp only [Value.WellFormed, Value.Type', Value.AsBool, Value.AsInt,
    Value.AsFloat, Value.AsString, Value.AsBlob, Value.AsTimestamp, Value.AsArray,
    Value.AsMap] at h <;> first
    | exact absurd h id
    | (subst h; rfl)
    | rfl

theorem ToBool_wellFormed_no_error_witness :
    (Value.ofTimestamp (Time.ofUnix Int64.zero 0)).WellFormed ∧
    (ToBool (Value.ofTimestamp (Time.ofUnix Int64.zero 0))).2 = none :=
  ⟨rfl, ToBool_wellFormed_no_error (Value.ofTimestamp (Time.ofUnix Int64.zero 0)) rfl⟩

/-- C8: for a value of kind Int whose accessor yields `n`, `ToBool` returns
`n != 0` with a nil error; for a value of kind Float whose accessor yields
`f`, `ToBool` returns `f != 0.0` with a nil error, which is false exactly
when `f` is `+0.0` or `-0.0`. -/
theorem ToBool_int_float_nonzero (v : Value) :
    (∀ n : Int64, v.Type' = TypeID.TypeInt → v.AsInt = (n, none) →
      ToBool v = (decide (n.val ≠ 0), none)) ∧
    (∀ f : Float64, v.Type' = TypeID.TypeFloat → v.AsFloat = (f, none) →
      ToBool v = (Float64.ne f Float64.zero, none) ∧
      ((ToBool v).1 = false ↔ f.exp.val = 0 ∧ f.frac.val = 0)) := by
  constructor
  · intro n hT hA
    simp [ToBool, hT, hA]
  · intro f hT hA
    have h : ToBool v = (Float64.ne f Float64.zero, none) := by simp [ToBool, hT, hA]
    refine ⟨h, ?_⟩
    rw [h, Float64.ne_zero_eq]
    simp [Float64.isZero]

theorem ToBool_int_float_nonzero_witness :
    ToBool (Value.ofInt ⟨-5, by decide⟩) = (true, none) ∧
    ToBool (Value.ofInt Int64.zero) = (false, none) ∧
    ToBool (Value.ofFloat ⟨false, 0, 0⟩) = (false, none) ∧
    ToBool (Value.ofFloat ⟨true, 0, 0⟩) = (false, none) ∧
    ToBool (Value.ofFloat ⟨false, 1024, 0x7333333333333⟩) = (true, none) :=
  ⟨(ToBool_int_float_nonzero (Value.ofInt ⟨-5, by decide⟩)).1 ⟨-5, by decide⟩ rfl rfl,
    (ToBool_int_float_nonzero (Value.ofInt Int64.zero)).1 Int64.zero rfl rfl,
    ((ToBool_int_float_nonzero (Value.ofFloat ⟨false, 0, 0⟩)).2 ⟨false, 0, 0⟩ rfl rfl).1,
    ((ToBool_int_float_nonzero (Value.ofFloat ⟨true, 0, 0⟩)).2 ⟨true, 0, 0⟩ rfl rfl).1,
    ((ToBool_int_float_nonzero (Value.ofFloat ⟨false, 1024, 0x7333333333333⟩)).2
      ⟨false, 1024, 0x7333333333333⟩ rfl rfl).1.trans (by decide)⟩

/-- C9: for a value of kind Bool whose accessor yields `b`, `ToBool` returns
`b` and `ToInt` returns 1 if `b` is true and 0 if `b` is false, both with a
nil error. -/
theorem ToBool_ToInt_bool (arch : Float64 → Int) (v : Value) (b : Bool)
    (hT : v.Type' = TypeID.TypeBool) (hA : v.AsBool = (b, none)) :
    ToBool v = (b, none) ∧
    ToInt arch v = (if b then Int64.one else Int64.zero, none) := by
  constructor
  · simp [ToBool, hT, hA]
  · cases b <;> simp [ToInt, hT, hA]

theorem ToBool_ToInt_bool_witness :
    ToBool (Value.ofBool true) = (true, none) ∧
    ToInt archAMD64 (Value.ofBool true) = (Int64.one, none) :=
  ToBool_ToInt_bool archAMD64 (Value.ofBool true) true rfl rfl

/-- C10: for a value of kind Null, `ToBool` returns false and `ToInt`
returns 0, both with a nil error, whatever the accessors of the value would
return: the results do not depend on any accessor. -/
theorem ToBool_ToInt_null (arch : Float64 → Int) (v : Value)
    (hT : v.Type' = TypeID.TypeNull) :
    ToBool v = (false, none) ∧ ToInt arch v = (Int64.zero, none) := by
  constructor
  · simp [ToBool, hT]
  · simp [ToInt, hT]

theorem ToBool_ToInt_null_witness :
    ToBool Value.null = (false, none) ∧ ToInt archAMD64 Value.null = (Int64.zero, none) :=
  ToBool_ToInt_null archAMD64 Value.null rfl

/-- C16: the range check of `ToInt` is inclusive at both constants. A Float
equal to `MinConvFloat64`, which is `-2 ^ 63`, is accepted and `ToInt`
returns `math.MinInt64` with a nil error; a Float equal to `MaxConvFloat64`
passes the check `val >= MinConvFloat64 && val <= MaxConvFloat64` and
`ToInt` returns the result of `int64(val)` with a nil error, not the error
branch. -/
theorem ToInt_float_bounds_inclusive (arch : Float64 → Int) (v : Value)
    (hT : v.Type' = TypeID.TypeFloat) :
    MinConvFloat64.scaled = MinInt64 * Float64.unit ∧
    (v.AsFloat = (MinConvFloat64, none) →
      ToInt arch v = (⟨MinInt64, by decide⟩, none)) ∧
    (Float64.ge MaxConvFloat64 MinConvFloat64 &&
      Float64.le MaxConvFloat64 MaxConvFloat64) = true ∧
    (v.AsFloat = (MaxConvFloat64, none) →
      ToInt arch v = (Float64.toInt64 arch MaxConvFloat64, none)) := by
  refine ⟨by decide, ?_, by decide, ?_⟩
  · intro hA
    rw [ToInt_float_eq arch v MinConvFloat64 hT hA]
    have hc : (Float64.ge MinConvFloat64 MinConvFloat64 &&
        Float64.le MinConvFloat64 MaxConvFloat64) = true := by decide
    have hr : MinConvFloat64.isFinite = true ∧ IsInt64 MinConvFloat64.trunc := by decide
    rw [if_pos hc, Float64.toInt64, dif_pos hr]
    have ht : MinConvFloat64.trunc = MinInt64 := by decide
    simp [ht]
  · intro hA
    rw [ToInt_float_eq arch v MaxConvFloat64 hT hA]
    have hc : (Float64.ge MaxConvFloat64 MinConvFloat64 &&
        Float64.le MaxConvFloat64 MaxConvFloat64) = true := by decide
    rw [if_pos hc]

theorem ToInt_float_bounds_inclusive_witness :
    ToInt archAMD64 (Value.ofFloat MinConvFloat64) = (⟨MinInt64, by decide⟩, none) ∧
    ToInt archAMD64 (Value.ofFloat MaxConvFloat64) =
      (Float64.toInt64 archAMD64 MaxConvFloat64, none) :=
  ⟨(ToInt_float_bounds_inclusive archAMD64 (Value.ofFloat MinConvFloat64) rfl).2.1 rfl,
    (ToInt_float_bounds_inclusive archAMD64 (Value.ofFloat MaxConvFloat64) rfl).2.2.2 rfl⟩

/-- C17: for a value of kind Null, Bool or Int whose accessor of that kind
succeeds, `ToBool` and `ToInt` both return a nil error and agree on
truthiness: the result of `ToBool` is true exactly when the result of
`ToInt` is not 0. -/
theorem ToBool_ToInt_agree (arch : Float64 → Int) (v : Value)
    (hT : v.Type' = TypeID.TypeNull ∨ v.Type' = TypeID.TypeBool ∨
      v.Type' = TypeID.TypeInt)
    (hW : v.WellFormed) :
    (ToBool v).2 = none ∧ (ToInt arch v).2 = none ∧
    (ToBool v).1 = decide ((ToInt arch v).1.val ≠ 0) := by
  obtain ⟨t, ⟨b, eb⟩, ⟨i, ei⟩, af, as, ab, ats, aa, am⟩ := v
  simp only [Value.Type'] at hT
  rcases hT with h | h | h
  · subst h
    simp [ToBool, ToInt, Value.Type', Int64.zero]
  · subst h
    simp only [Value.WellFormed, Value.Type', Value.AsBool] at hW
    subst hW
    cases b <;> simp [ToBool, ToInt, Value.Type', Value.AsBool, Int64.zero, Int64.one]
  · subst h
    simp only [Value.WellFormed, Value.Type', Value.AsInt] at hW
    subst hW
    simp [ToBool, ToInt, Value.Type', Value.AsInt]

theorem ToBool_ToInt_agree_witness :
    (ToBool (Value.ofInt ⟨-5, by decide⟩)).2 = none ∧
    (ToInt archAMD64 (Value.ofInt ⟨-5, by decide⟩)).2 = none ∧
    (ToBool (Value.ofInt ⟨-5, by decide⟩)).1 =
      decide ((ToInt archAMD64 (Value.ofInt ⟨-5, by decide⟩)).1.val ≠ 0) :=
  ToBool_ToInt_agree archAMD64 (Value.ofInt ⟨-5, by decide⟩) (Or.inr (Or.inr rfl)) rfl

/-- C18 (as stated it fails): on a value of kind String whose accessor
`AsString` returns the error `e`, `ToInt` does not return `e`: it calls no
accessor and returns its own "cannot convert" error. -/
theorem ToInt_string_accessor_error_not_returned :
    (Value.brokenString (Error.accessor "broken")).Type' = TypeID.TypeString ∧
    (Value.brokenString (Error.accessor "broken")).AsString.2 =
      some (Error.accessor "broken") ∧
    ToInt archAMD64 (Value.brokenString (Error.accessor "broken")) =
      (Int64.zero, some Error.cannotConvertToInt64) ∧
    ToInt archAMD64 (Value.brokenString (Error.accessor "broken")) ≠
      (Int64.zero, some (Error.accessor "broken")) := by
  decide

/-- C18 (amended): whenever `ToBool` returns a non-nil error its bool result
is false, and whenever `ToInt` returns a non-nil error its `int64` result is
0. When the accessor matching the kind of the value returns an error `e`,
`ToBool` returns exactly `e` with false, and `ToInt` returns exactly `e`
with 0 for the kinds Bool, Int, Float and Timestamp, whose accessor it
calls; for the kinds String, Blob, Array and Map `ToInt` returns its own
"cannot convert" error with 0. -/
theorem conversion_error_default (arch : Float64 → Int) (v : Value) :
    ((ToBool v).2 ≠ none → (ToBool v).1 = false) ∧
    ((ToInt arch v).2 ≠ none → (ToInt arch v).1 = Int64.zero) ∧
    (∀ e : Error, v.accessorError = some e → ToBool v = (false, some e)) ∧
    (∀ e : Error, v.accessorError = some e →
      (v.Type' = TypeID.TypeBool ∨ v.Type' = TypeID.TypeInt ∨
        v.Type' = TypeID.TypeFloat ∨ v.Type' = TypeID.TypeTimestamp) →
      ToInt arch v = (Int64.zero, some e)) ∧
    (∀ e : Error, v.accessorError = some e →
      (v.Type' = TypeID.TypeString ∨ v.Type' = TypeID.TypeBlob ∨
        v.Type' = TypeID.TypeArray ∨ v.Type' = TypeID.TypeMap) →
      ToInt arch v = (Int64.zero, some Error.cannotConvertToInt64)) := by
  obtain ⟨t, ⟨b, eb⟩, ⟨i, ei⟩, ⟨f, ef⟩, ⟨s, es⟩, ⟨bl, ebl⟩, ⟨ts, ets⟩, ⟨a, ea⟩, ⟨m, em⟩⟩ := v
  refine ⟨?_, ?_, ?_, ?_, ?_⟩
  · cases t
    case TypeBool => cases eb <;> simp [ToBool, Value.Type', Value.AsBool]
    case TypeInt => cases ei <;> simp [ToBool, Value.Type', Value.AsInt]
    case TypeFloat => cases ef <;> simp [ToBool, Value.Type', Value.AsFloat]
    case TypeString => cases es <;> simp [ToBool, Value.Type', Value.AsString]
    case TypeBlob => cases ebl <;> simp [ToBool, Value.Type', Value.AsBlob]
    case TypeTimestamp => cases ets <;> simp [ToBool, Value.Type', Value.AsTimestamp]
    case TypeArray => cases ea <;> simp [ToBool, Value.Type', Value.AsArray]
    case TypeMap => cases em <;> simp [ToBool, Value.Type', Value.AsMap]
    all_goals simp [ToBool, Value.Type']
  · cases t
    case TypeBool => cases eb <;> cases b <;> simp [ToInt, Value.Type', Value.AsBool]
    case TypeInt => cases ei <;> simp [ToInt, Value.Type', Value.AsInt]
    case TypeFloat =>
      cases ef
      · simp only [ToInt, Value.Type', Value.AsFloat]
        split <;> simp
      · simp [ToInt, Value.Type', Value.AsFloat]
    case TypeTimestamp => cases ets <;> simp [ToInt, Value.Type', Value.AsTimestamp]
    all_goals simp [ToInt, Value.Type']
  · intro e he
    cases t <;> simp only [Value.accessorError, Value.Type', Value.AsBool, Value.AsInt,
      Value.AsFloat, Value.AsString, Value.AsBlob, Value.AsTimestamp, Value.AsArray,
      Value.AsMap] at he <;> first
      | exact absurd he (by simp)
      | (subst he
         simp [ToBool, Value.Type', Value.AsBool, Value.AsInt, Value.AsFloat,
           Value.AsString, Value.AsBlob, Value.AsTimestamp, Value.AsArray, Value.AsMap])
  · intro e he hT
    simp only [Value.Type'] at hT
    rcases hT with h | h | h | h <;> subst h <;>
      simp only [Value.accessorError, Value.Type', Value.AsBool, Value.AsInt,
        Value.AsFloat, Value.AsTimestamp] at he <;> subst he <;>
      simp [ToInt, Value.Type', Value.AsBool, Value.AsInt, Value.AsFloat,
        Value.AsTimestamp]
  · intro e _ hT
    simp only [Value.Type'] at hT
    rcases hT with h | h | h | h <;> subst h <;> simp [ToInt, Value.Type']

theorem conversion_error_default_witness :
    ToBool (Value.brokenString (Error.accessor "broken")) =
      (false, some (Error.accessor "broken")) ∧
    ToInt archAMD64 (Value.brokenString (Error.accessor "broken")) =
      (Int64.zero, some Error.cannotConvertToInt64) :=
  ⟨(conversion_error_default archAMD64
      (Value.brokenString (Error.accessor "broken"))).2.2.1 (Error.accessor "broken") rfl,
    (conversion_error_default archAMD64
      (Value.brokenString (Error.accessor "broken"))).2.2.2.2 (Error.accessor "broken") rfl
      (Or.inl rfl)⟩

/-- C19: `ToInt` rejects non-finite Floats. For a value of kind Float whose
accessor yields a NaN, `+Inf` or `-Inf`, the range check is false and
`ToInt` returns 0 with the out-of-bounds error; the result does not involve
`int64(val)`. -/
theorem ToInt_float_nonfinite (arch : Float64 → Int) (v : Value) (f : Float64)
    (hT : v.Type' = TypeID.TypeFloat) (hA : v.AsFloat = (f, none))
    (hN : f.isNaN = true ∨ f.isInf = true) :
    (Float64.ge f MinConvFloat64 && Float64.le f MaxConvFloat64) = false ∧
    ToInt arch v = (Int64.zero, some (Error.outOfBounds f)) := by
  have hc : (Float64.ge f MinConvFloat64 && Float64.le f MaxConvFloat64) = false := by
    rcases hN with h | h
    · simp [Float64.ge, Float64.le, h]
    · have hnan : f.isNaN = false := by
        simp only [Float64.isInf, Float64.isNaN, Bool.and_eq_true, beq_iff_eq] at h ⊢
        simp [h.1, h.2]
      have hb : (2 : Int) ^ 63 * Float64.unit < ((2 ^ 2100 : Nat) : Int) := by decide
      cases hs : f.sign
      · have hx : f.extended = ((2 ^ 2100 : Nat) : Int) := by
          simp [Float64.extended, h, hs]
        have : Float64.le f MaxConvFloat64 = false := by
          simp only [Float64.le, hx, MaxConvFloat64_extended, Bool.and_eq_false_imp,
            decide_eq_false_iff_not]
          intro _ _; omega
        simp [this]
      · have hx : f.extended = -((2 ^ 2100 : Nat) : Int) := by
          simp [Float64.extended, h, hs]
        have : Float64.ge f MinConvFloat64 = false := by
          simp only [Float64.ge, Float64.le, hx, MinConvFloat64_extended,
            Bool.and_eq_false_imp, decide_eq_false_iff_not]
          intro _ _; omega
        simp [this]
  refine ⟨hc, ?_⟩
  rw [ToInt_float_eq arch v f hT hA, hc]
  simp

theorem ToInt_float_nonfinite_witness :
    ToInt archAMD64 (Value.ofFloat ⟨false, 2047, 1⟩) =
      (Int64.zero, some (Error.outOfBounds ⟨false, 2047, 1⟩)) ∧
    ToInt archAMD64 (Value.ofFloat ⟨false, 2047, 0⟩) =
      (Int64.zero, some (Error.outOfBounds ⟨false, 2047, 0⟩)) ∧
    ToInt archAMD64 (Value.ofFloat ⟨true, 2047, 0⟩) =
      (Int64.zero, some (Error.outOfBounds ⟨true, 2047, 0⟩)) :=
  ⟨(ToInt_float_nonfinite archAMD64 (Value.ofFloat ⟨false, 2047, 1⟩) ⟨false, 2047, 1⟩
      rfl rfl (Or.inl (by decide))).2,
    (ToInt_float_nonfinite archAMD64 (Value.ofFloat ⟨false, 2047, 0⟩) ⟨false, 2047, 0⟩
      rfl rfl (Or.inr (by decide))).2,
    (ToInt_float_nonfinite archAMD64 (Value.ofFloat ⟨true, 2047, 0⟩) ⟨true, 2047, 0⟩
      rfl rfl (Or.inr (by decide))).2⟩

end Tuple

namespace Core

/-! ## Facts about the topology model -/

theorem wrapInt64_val (x : Int) (h : Tuple.IsInt64 x) : (Tuple.wrapInt64 x).val = x := by
  unfold Tuple.IsInt64 Tuple.MinInt64 Tuple.MaxInt64 at h
  show (x + 2 ^ 63) % 2 ^ 64 - 2 ^ 63 = x
  rw [Int.emod_eq_of_lt (by omega) (by omega)]
  omega

theorem panicBox.Process_fields {σ τ : Type} (proxy : σ → τ → σ × Result τ)
    (b : panicBox σ) (t : τ) :
    (panicBox.Process proxy b t).1.writeCnt = Tuple.wrapInt64 (b.writeCnt.val + 1) ∧
    (panicBox.Process proxy b t).1.writePanicAt = b.writePanicAt ∧
    (panicBox.Process proxy b t).1.writeFailAt = b.writeFailAt := by
  unfold panicBox.Process
  simp only
  split
  · exact ⟨rfl, rfl, rfl⟩
  · split <;> exact ⟨rfl, rfl, rfl⟩

theorem panicBox.calls_fields {σ τ : Type} (proxy : σ → τ → σ × Result τ)
    (ts : List τ) : ∀ b : panicBox σ,
    b.writeCnt.val + ts.length ≤ Tuple.MaxInt64 →
    (panicBox.calls proxy b ts).writeCnt.val = b.writeCnt.val + ts.length ∧
    (panicBox.calls proxy b ts).writePanicAt = b.writePanicAt ∧
    (panicBox.calls proxy b ts).writeFailAt = b.writeFailAt := by
  induction ts with
  | nil => intro b _; simp [panicBox.calls]
  | cons t ts ih =>
    intro b hb
    have hf := panicBox.Process_fields proxy b t
    have hlo := b.writeCnt.property.1
    have hv : (panicBox.Process proxy b t).1.writeCnt.val = b.writeCnt.val + 1 := by
      rw [hf.1]
      apply wrapInt64_val
      constructor
      · unfold Tuple.MinInt64 at *; omega
      · simp only [List.length_cons, Nat.cast_add, Nat.cast_one] at hb; omega
    simp only [List.length_cons, Nat.cast_add, Nat.cast_one] at hb
    have := ih (panicBox.Process proxy b t).1 (by rw [hv]; omega)
    simp only [panicBox.calls, List.length_cons, Nat.cast_add, Nat.cast_one]
    rw [this.1, this.2.1, this.2.2, hv, hf.2.1, hf.2.2]
    refine ⟨by omega, rfl, rfl⟩

theorem register_keys {β τ : Type} (tp : Topology β τ) (role : Role) (name : String)
    (impl : Option β) (h : (tp.nodes.map (fun n => nameKey n.name)).Nodup) :
    ((tp.register role name impl).1.nodes.map (fun n => nameKey n.name)).Nodup := by
  unfold Topology.register
  split
  · exact h
  · rename_i hn
    simp only [Topology.lookup, Option.not_isSome_iff_eq_none, List.find?_eq_none,
      decide_eq_true_eq] at hn
    simp only [List.map_append, List.map_cons, List.map_nil]
    rw [List.nodup_append]
    refine ⟨h, List.nodup_singleton _, ?_⟩
    intro k hk hk'
    simp only [List.mem_singleton] at hk'
    simp only [List.mem_map] at hk
    obtain ⟨n, hn1, hn2⟩ := hk
    exact hn n hn1 (hn2.trans hk')

theorem Input_nodes {β τ : Type} (tp : Topology β τ) (down up : String) :
    (tp.Input down up).1.nodes = tp.nodes := by
  unfold Topology.Input
  split
  · rfl
  · split
    · rfl
    · split
      · rfl
      · split <;> rfl

theorem run_keys {β τ : Type} (ops : List (Topology.Op β)) :
    ∀ tp : Topology β τ, (tp.nodes.map (fun n => nameKey n.name)).Nodup →
    ((tp.run ops).nodes.map (fun n => nameKey n.name)).Nodup := by
  induction ops with
  | nil => intro tp h; exact h
  | cons op ops ih =>
    intro tp h
    simp only [Topology.run, List.foldl_cons]
    apply ih
    cases op with
    | addSource name => exact register_keys tp _ name _ h
    | addBox name b => exact register_keys tp _ name _ h
    | addSink name => exact register_keys tp _ name _ h
    | input down up =>
      simp only [Topology.apply]
      rw [Input_nodes]; exact h


theorem Node.feed_append {β τ : Type} (process : β → τ → β × Result τ) (ts us : List τ) :
    ∀ n : Node β τ, Node.feed process n (ts ++ us) = Node.feed process (Node.feed process n ts) us := by
  induction ts with
  | nil => intro n; rfl
  | cons t ts ih => intro n; simp only [List.cons_append, Node.feed]; exact ih _

theorem Node.deliver_not_running {β τ : Type} (process : β → τ → β × Result τ)
    (n : Node β τ) (t : τ) (h : n.state ≠ .TSRunning) : Node.deliver process n t = (n, []) := by
  simp [Node.deliver, h]

theorem Node.feed_not_running {β τ : Type} (process : β → τ → β × Result τ) (ts : List τ) :
    ∀ n : Node β τ, n.state ≠ .TSRunning → Node.feed process n ts = n := by
  induction ts with
  | nil => intro n _; rfl
  | cons t ts ih =>
    intro n h
    simp only [Node.feed, Node.deliver_not_running process n t h]
    exact ih n h

theorem emit_rewired {β τ : Type} (process : β → τ → β × Result τ)
    (so b si : Node β τ) (t : τ)
    (hso : nameKey so.name = "source") (hsoR : so.role = Role.Source)
    (hsoS : so.state = TopologyState.TSRunning)
    (hb : nameKey b.name = "box1") (hbS : b.state = TopologyState.TSStopped)
    (hsi : nameKey si.name = "sink") (hsiR : si.role = Role.Sink)
    (hsiS : si.state = TopologyState.TSRunning) :
    Topology.emit process
      ⟨[so, b, si], [("source", "box1"), ("box1", "sink"), ("source", "sink")]⟩ so.name t =
      ⟨[so, b, { si with tuples := si.tuples ++ [t] }],
        [("source", "box1"), ("box1", "sink"), ("source", "sink")]⟩ := by
  simp [Topology.emit, Topology.lookup, Topology.subscribers, Topology.deliver, Topology.set,
    Node.deliver, hso, hsoR, hsoS, hb, hbS, hsi, hsiR, hsiS]


theorem emitAll_rewired {β τ : Type} (process : β → τ → β × Result τ)
    (so b : Node β τ) (ts : List τ) : ∀ si : Node β τ,
    nameKey so.name = "source" → so.role = Role.Source →
    so.state = TopologyState.TSRunning →
    nameKey b.name = "box1" → b.state = TopologyState.TSStopped →
    nameKey si.name = "sink" → si.role = Role.Sink →
    si.state = TopologyState.TSRunning →
    Topology.emitAll process
      ⟨[so, b, si], [("source", "box1"), ("box1", "sink"), ("source", "sink")]⟩ so.name ts =
      ⟨[so, b, { si with tuples := si.tuples ++ ts }],
        [("source", "box1"), ("box1", "sink"), ("source", "sink")]⟩ := by
  induction ts with
  | nil => intro si _ _ _ _ _ _ _ _; simp [Topology.emitAll]
  | cons t ts ih =>
    intro si hso hsoR hsoS hb hbS hsi hsiR hsiS
    simp only [Topology.emitAll, List.foldl_cons]
    rw [emit_rewired process so b si t hso hsoR hsoS hb hbS hsi hsiR hsiS]
    have := ih { si with tuples := si.tuples ++ [t] } hso hsoR hsoS hb hbS hsi hsiR hsiS
    simp only [Topology.emitAll] at this
    rw [this]
    simp

theorem register_fails {β τ : Type} (tp : Topology β τ) (role : Role) (name : String)
    (impl : Option β) (n : Node β τ) (hn : n ∈ tp.nodes)
    (hk : nameKey name = nameKey n.name) :
    tp.register role name impl = (tp, some (TopologyError.nameAlreadyUsed name)) := by
  have h : (tp.lookup (nameKey name)).isSome = true := by
    simp only [Topology.lookup, List.find?_isSome, decide_eq_true_eq]
    exact ⟨n, hn, hk.symm⟩
  simp [Topology.register, h]

theorem lookup_register {β τ : Type} (tp : Topology β τ) (role : Role) (name : String)
    (impl : Option β) (k : String) (h : (tp.lookup k).isSome = true) :
    ((tp.register role name impl).1.lookup k).isSome = true := by
  unfold Topology.register
  split
  · exact h
  · simp only [Topology.lookup, List.find?_isSome, decide_eq_true_eq, List.mem_append] at h ⊢
    obtain ⟨x, hx, hxk⟩ := h
    exact ⟨x, Or.inl hx, hxk⟩

theorem register_edges {β τ : Type} (tp : Topology β τ) (role : Role) (name : String)
    (impl : Option β) : (tp.register role name impl).1.edges = tp.edges := by
  unfold Topology.register
  split <;> rfl

theorem Input_edges_known {β τ : Type} (tp : Topology β τ) (down up : String)
    (h : ∀ e ∈ tp.edges, (tp.lookup e.1).isSome = true) :
    ∀ e ∈ (tp.Input down up).1.edges, ((tp.Input down up).1.lookup e.1).isSome = true := by
  unfold Topology.Input
  split
  · exact h
  · rename_i x hx
    split
    · exact h
    · split
      · exact h
      · split
        · exact h
        · intro e he
          simp only [List.mem_append, List.mem_singleton] at he
          rcases he with he | he
          · exact h e he
          · subst he
            show (tp.lookup (nameKey up)).isSome = true
            rw [hx]; rfl

theorem run_edges_known {β τ : Type} (ops : List (Topology.Op β)) :
    ∀ tp : Topology β τ, (∀ e ∈ tp.edges, (tp.lookup e.1).isSome = true) →
    ∀ e ∈ (tp.run ops).edges, ((tp.run ops).lookup e.1).isSome = true := by
  induction ops with
  | nil => intro tp h; exact h
  | cons op ops ih =>
    intro tp h
    simp only [Topology.run, List.foldl_cons]
    apply ih
    cases op with
    | addSource name =>
      intro e he
      simp only [Topology.apply, Topology.AddSource, register_edges] at he ⊢
      exact lookup_register tp _ name _ e.1 (h e he)
    | addBox name b =>
      intro e he
      simp only [Topology.apply, Topology.AddBox, register_edges] at he ⊢
      exact lookup_register tp _ name _ e.1 (h e he)
    | addSink name =>
      intro e he
      simp only [Topology.apply, Topology.AddSink, register_edges] at he ⊢
      exact lookup_register tp _ name _ e.1 (h e he)
    | input down up => exact Input_edges_known tp down up h

/-! ## The claims on the topology -/

/-- C11: in the topology reached by any sequence of registry calls, no two
registered nodes have names that are equal under case-insensitive
comparison, whatever their roles; and a call of `AddSource`, `AddBox` or
`AddSink` whose name collides case-insensitively with the name of a
registered node fails with an error whose message contains "already used"
and leaves the topology unchanged. -/
theorem registration_names_unique {β τ : Type} (ops : List (Topology.Op β)) :
    (((Topology.empty : Topology β τ).run ops).nodes.map (fun n => nameKey n.name)).Nodup ∧
    ∀ (name : String) (n : Node β τ), n ∈ ((Topology.empty : Topology β τ).run ops).nodes →
      nameKey name = nameKey n.name →
      (((Topology.empty : Topology β τ).run ops).AddSource name =
          ((Topology.empty : Topology β τ).run ops,
            some (TopologyError.nameAlreadyUsed name)) ∧
        (∀ b : β, ((Topology.empty : Topology β τ).run ops).AddBox name b =
          ((Topology.empty : Topology β τ).run ops,
            some (TopologyError.nameAlreadyUsed name))) ∧
        ((Topology.empty : Topology β τ).run ops).AddSink name =
          ((Topology.empty : Topology β τ).run ops,
            some (TopologyError.nameAlreadyUsed name)) ∧
        containsSubstring (TopologyError.nameAlreadyUsed name).Error "already used") := by
  refine ⟨run_keys ops _ (by simp [Topology.empty]), ?_⟩
  intro name n hn hk
  refine ⟨register_fails _ _ name _ n hn hk, fun b => register_fails _ _ name _ n hn hk,
    register_fails _ _ name _ n hn hk, ?_⟩
  show containsSubstring "name already used" "already used"
  decide

theorem registration_names_unique_witness :
    ((Topology.empty : Topology (panicBox Unit) Nat).run scenarioOps).AddSource "SOURCE" =
      ((Topology.empty : Topology (panicBox Unit) Nat).run scenarioOps,
        some (TopologyError.nameAlreadyUsed "SOURCE")) ∧
    ((Topology.empty : Topology (panicBox Unit) Nat).run scenarioOps).AddSink "SINK" =
      ((Topology.empty : Topology (panicBox Unit) Nat).run scenarioOps,
        some (TopologyError.nameAlreadyUsed "SINK")) ∧
    (∀ b : panicBox Unit,
      ((Topology.empty : Topology (panicBox Unit) Nat).run scenarioOps).AddBox "BOX1" b =
      ((Topology.empty : Topology (panicBox Unit) Nat).run scenarioOps,
        some (TopologyError.nameAlreadyUsed "BOX1"))) :=
  ⟨((registration_names_unique scenarioOps).2 "SOURCE"
      ⟨"source", .Source, .TSCreated, none, [], 0, none⟩ (by decide) (by decide)).1,
    ((registration_names_unique scenarioOps).2 "SINK"
      ⟨"sink", .Sink, .TSCreated, none, [], 0, none⟩ (by decide) (by decide)).2.2.1,
    ((registration_names_unique scenarioOps).2 "BOX1"
      ⟨"box1", .Box, .TSCreated,
        some ⟨(), Tuple.Int64.zero, Tuple.Int64.one, Tuple.Int64.zero⟩, [], 0, none⟩
      (by decide) (by decide)).2.1⟩

/-- C12: in the topology reached by any sequence of registry calls, when
the node `down` already has an input from the upstream named `u`, a further
`Input` call naming that upstream, also under a name that differs from `u`
in letter case only, fails with an error whose message contains "already",
and the topology, the connections of the node included, is unchanged. -/
theorem duplicate_input_fails {β τ : Type} (ops : List (Topology.Op β))
    (down u up : String)
    (hedge : (nameKey u, nameKey down) ∈ ((Topology.empty : Topology β τ).run ops).edges)
    (hcase : nameKey up = nameKey u) :
    ((Topology.empty : Topology β τ).run ops).Input down up =
      ((Topology.empty : Topology β τ).run ops, some (TopologyError.duplicateInput up)) ∧
    containsSubstring (TopologyError.duplicateInput up).Error "already" := by
  refine ⟨?_, by show containsSubstring "upstream already connected" "already"; decide⟩
  have hk := run_edges_known ops (Topology.empty : Topology β τ)
    (by simp [Topology.empty]) _ hedge
  rw [← hcase] at hk hedge
  obtain ⟨x, hx⟩ := Option.isSome_iff_exists.mp hk
  simp only at hx
  simp [Topology.Input, hx, hedge]

theorem duplicate_input_fails_witness :
    ((Topology.empty : Topology (panicBox Unit) Nat).run scenarioOps).Input "sink" "BOX1" =
      ((Topology.empty : Topology (panicBox Unit) Nat).run scenarioOps,
        some (TopologyError.duplicateInput "BOX1")) ∧
    containsSubstring (TopologyError.duplicateInput "BOX1").Error "already" :=
  duplicate_input_fails scenarioOps "sink" "box1" "BOX1" (by decide) (by decide)

/-- C15: `panicBox.Process` is driven by its counter. On a box whose
counter starts at 0, the call of 1-based index `k` (the one after `k - 1`
earlier calls, whatever their outcomes) adds exactly one to `writeCnt`,
which becomes `k`. It panics when `k` equals `writePanicAt`, also when
`writeFailAt` is the same; it returns the error "test failure", writing no
tuple and leaving the wrapped box untouched, when `k` equals `writeFailAt`
and not `writePanicAt`; otherwise it returns the result of the wrapped
`ProxyBox.Process`. With both thresholds 0 it never panics or fails of its
own accord. -/
theorem panicBox_Process_counter {σ τ : Type} (proxy : σ → τ → σ × Result τ)
    (b0 : panicBox σ) (ts : List τ) (t : τ)
    (h0 : b0.writeCnt.val = 0) (hlen : (ts.length : Int) < Tuple.MaxInt64) :
    (panicBox.Process proxy (panicBox.calls proxy b0 ts) t).1.writeCnt.val
      = (panicBox.calls proxy b0 ts).writeCnt.val + 1 ∧
    (panicBox.Process proxy (panicBox.calls proxy b0 ts) t).1.writeCnt.val
      = (ts.length : Int) + 1 ∧
    (((ts.length : Int) + 1 = b0.writePanicAt.val) →
      (panicBox.Process proxy (panicBox.calls proxy b0 ts) t).2
        = ⟨[], Outcome.panicked "test failure via panic"⟩ ∧
      (panicBox.Process proxy (panicBox.calls proxy b0 ts) t).1.ProxyBox
        = (panicBox.calls proxy b0 ts).ProxyBox) ∧
    (((ts.length : Int) + 1 = b0.writeFailAt.val) →
      ((ts.length : Int) + 1 ≠ b0.writePanicAt.val) →
      (panicBox.Process proxy (panicBox.calls proxy b0 ts) t).2
        = ⟨[], Outcome.failed "test failure"⟩ ∧
      (panicBox.Process proxy (panicBox.calls proxy b0 ts) t).1.ProxyBox
        = (panicBox.calls proxy b0 ts).ProxyBox) ∧
    (((ts.length : Int) + 1 ≠ b0.writePanicAt.val) →
      ((ts.length : Int) + 1 ≠ b0.writeFailAt.val) →
      (panicBox.Process proxy (panicBox.calls proxy b0 ts) t).2
        = (proxy (panicBox.calls proxy b0 ts).ProxyBox t).2 ∧
      (panicBox.Process proxy (panicBox.calls proxy b0 ts) t).1.ProxyBox
        = (proxy (panicBox.calls proxy b0 ts).ProxyBox t).1) ∧
    (b0.writePanicAt.val = 0 → b0.writeFailAt.val = 0 →
      (panicBox.Process proxy (panicBox.calls proxy b0 ts) t).2
        = (proxy (panicBox.calls proxy b0 ts).ProxyBox t).2) := by
  have hc := panicBox.calls_fields proxy ts b0 (by rw [h0]; omega)
  rw [h0, zero_add] at hc
  obtain ⟨hcnt, hpa, hfa⟩ := hc
  generalize panicBox.calls proxy b0 ts = b at hcnt hpa hfa ⊢
  have hw : (Tuple.wrapInt64 (b.writeCnt.val + 1)).val = (ts.length : Int) + 1 := by
    rw [hcnt]
    apply wrapInt64_val
    constructor
    · unfold Tuple.MinInt64; omega
    · omega
  have hf := panicBox.Process_fields proxy b t
  have key : ∀ x : Tuple.Int64, Tuple.wrapInt64 (b.writeCnt.val + 1) = x ↔
      (ts.length : Int) + 1 = x.val := by
    intro x
    constructor
    · intro h; rw [← h, hw]
    · intro h; exact Subtype.ext (by rw [hw, h])
  refine ⟨by rw [hf.1, hw, hcnt], by rw [hf.1, hw], ?_, ?_, ?_, ?_⟩
  · intro hk
    have : Tuple.wrapInt64 (b.writeCnt.val + 1) = b.writePanicAt := by
      rw [key, hpa]; exact hk
    simp [panicBox.Process, this]
  · intro hk hn
    have h1 : ¬ Tuple.wrapInt64 (b.writeCnt.val + 1) = b.writePanicAt := by
      rw [key, hpa]; exact hn
    have h2 : Tuple.wrapInt64 (b.writeCnt.val + 1) = b.writeFailAt := by
      rw [key, hfa]; exact hk
    have h3 : ¬ b.writeFailAt = b.writePanicAt := by rw [← h2]; exact h1
    simp [panicBox.Process, h2, h3]
  · intro hn1 hn2
    have h1 : ¬ Tuple.wrapInt64 (b.writeCnt.val + 1) = b.writePanicAt := by
      rw [key, hpa]; exact hn1
    have h2 : ¬ Tuple.wrapInt64 (b.writeCnt.val + 1) = b.writeFailAt := by
      rw [key, hfa]; exact hn2
    simp [panicBox.Process, h1, h2]
  · intro hp hfz
    have h1 : ¬ Tuple.wrapInt64 (b.writeCnt.val + 1) = b.writePanicAt := by
      rw [key, hpa, hp]; omega
    have h2 : ¬ Tuple.wrapInt64 (b.writeCnt.val + 1) = b.writeFailAt := by
      rw [key, hfa, hfz]; omega
    simp [panicBox.Process, h1, h2]

/-- C13: for every `k ≥ 1`, if a running box has had `k - 1` invocations of
`Process` and the `k`-th invocation panics, the wrapper recovers the panic
and retains its value, the state of the box reaches `TSStopped`, so that
`Wait(TSStopped)` returns `TSStopped`, and whatever tuples are delivered
afterwards `Process` is not invoked again: the count of invocations stays
`k` and the box implementation stays as the panicking call left it. -/
theorem panic_stops_box {β τ : Type} (process : β → τ → β × Result τ)
    (n : Node β τ) (ts rest : List τ) (t : τ) (b : β) (v : String) (k : Nat)
    (hrole : (Node.feed process n ts).role = Role.Box)
    (hrun : (Node.feed process n ts).state = TopologyState.TSRunning)
    (himpl : (Node.feed process n ts).impl = some b)
    (hk : (Node.feed process n ts).processCalls + 1 = k)
    (hpanic : (process b t).2.outcome = Outcome.panicked v) :
    (Node.feed process n (ts ++ t :: rest)).state = TopologyState.TSStopped ∧
    (Node.feed process n (ts ++ t :: rest)).Wait TopologyState.TSStopped =
      some TopologyState.TSStopped ∧
    (Node.feed process n (ts ++ t :: rest)).panicValue = some v ∧
    (Node.feed process n (ts ++ t :: rest)).processCalls = k ∧
    (Node.feed process n (ts ++ t :: rest)).impl = some (process b t).1 := by
  rw [Node.feed_append]
  generalize Node.feed process n ts = m at hrole hrun himpl hk
  have hd : (Node.deliver process m t).1 =
      ({ m with impl := some (process b t).1, processCalls := m.processCalls + 1 } :
        Node β τ).fail (some v) := by
    simp [Node.deliver, hrun, hrole, himpl, hpanic]
  have hs : (Node.deliver process m t).1.state ≠ TopologyState.TSRunning := by
    rw [hd]; simp [Node.fail]
  simp only [Node.feed]
  rw [Node.feed_not_running process rest _ hs, hd]
  simp [Node.fail, Node.Wait, TopologyState.rank, hk]

/-- C14: recovery by rewiring. In a topology `source → box1 → sink` whose
source and sink are running and whose box has stopped, the sink's `Input`
call naming the source succeeds and adds the connection from the source to
the sink; and for every list of tuples the source emits afterwards, the sink
collects exactly those tuples, in order, after the ones it held, while the
source and the stopped box stay as they were. -/
theorem rewire_recovery {β τ : Type} (process : β → τ → β × Result τ)
    (so b si : Node β τ)
    (hso : nameKey so.name = "source") (hsoR : so.role = Role.Source)
    (hsoS : so.state = TopologyState.TSRunning)
    (hb : nameKey b.name = "box1") (hbS : b.state = TopologyState.TSStopped)
    (hsi : nameKey si.name = "sink") (hsiR : si.role = Role.Sink)
    (hsiS : si.state = TopologyState.TSRunning) :
    Topology.Input ⟨[so, b, si], [("source", "box1"), ("box1", "sink")]⟩ si.name so.name =
      (⟨[so, b, si], [("source", "box1"), ("box1", "sink"), ("source", "sink")]⟩, none) ∧
    ∀ ts : List τ,
      Topology.emitAll process
        (Topology.Input ⟨[so, b, si], [("source", "box1"), ("box1", "sink")]⟩
          si.name so.name).1 so.name ts =
      ⟨[so, b, { si with tuples := si.tuples ++ ts }],
        [("source", "box1"), ("box1", "sink"), ("source", "sink")]⟩ := by
  have hI : Topology.Input ⟨[so, b, si], [("source", "box1"), ("box1", "sink")]⟩
      si.name so.name =
      (⟨[so, b, si], [("source", "box1"), ("box1", "sink"), ("source", "sink")]⟩, none) := by
    simp [Topology.Input, Topology.lookup, hso, hb, hsi, hsiR]
  refine ⟨hI, ?_⟩
  rw [hI]
  intro ts
  exact emitAll_rewired process so b ts si hso hsoR hsoS hb hbS hsi hsiR hsiS

theorem panicBox_Process_counter_witness :
    (panicBox.Process forwardBox
      (panicBox.calls forwardBox
        (⟨(), ⟨2, by decide⟩, ⟨2, by decide⟩, Tuple.Int64.zero⟩ : panicBox Unit) [10]) 11).2 =
      ⟨[], Outcome.panicked "test failure via panic"⟩ ∧
    (panicBox.Process forwardBox
      (panicBox.calls forwardBox
        (⟨(), Tuple.Int64.zero, Tuple.Int64.zero, Tuple.Int64.zero⟩ : panicBox Unit) [10])
      11).2 = ⟨[11], Outcome.ok⟩ :=
  ⟨((panicBox_Process_counter forwardBox
      (⟨(), ⟨2, by decide⟩, ⟨2, by decide⟩, Tuple.Int64.zero⟩ : panicBox Unit) [10] 11 rfl
      (by decide)).2.2.1 rfl).1,
    (panicBox_Process_counter forwardBox
      (⟨(), Tuple.Int64.zero, Tuple.Int64.zero, Tuple.Int64.zero⟩ : panicBox Unit) [10] 11 rfl
      (by decide)).2.2.2.2.2 rfl rfl⟩

theorem panic_stops_box_witness :
    (Node.feed (panicBox.Process forwardBox)
      (⟨"box1", .Box, .TSRunning,
        some ⟨(), Tuple.Int64.zero, ⟨3, by decide⟩, Tuple.Int64.zero⟩, [], 0, none⟩ :
        Node (panicBox Unit) Nat) ([1, 2] ++ 3 :: [4, 5])).state = TopologyState.TSStopped ∧
    (Node.feed (panicBox.Process forwardBox)
      (⟨"box1", .Box, .TSRunning,
        some ⟨(), Tuple.Int64.zero, ⟨3, by decide⟩, Tuple.Int64.zero⟩, [], 0, none⟩ :
        Node (panicBox Unit) Nat) ([1, 2] ++ 3 :: [4, 5])).processCalls = 3 :=
  ⟨(panic_stops_box (panicBox.Process forwardBox)
      (⟨"box1", .Box, .TSRunning,
        some ⟨(), Tuple.Int64.zero, ⟨3, by decide⟩, Tuple.Int64.zero⟩, [], 0, none⟩ :
        Node (panicBox Unit) Nat) [1, 2] [4, 5] 3
      ⟨(), Tuple.Int64.zero, ⟨3, by decide⟩, ⟨2, by decide⟩⟩ "test failure via panic" 3
      rfl rfl (by decide) rfl rfl).1,
    (panic_stops_box (panicBox.Process forwardBox)
      (⟨"box1", .Box, .TSRunning,
        some ⟨(), Tuple.Int64.zero, ⟨3, by decide⟩, Tuple.Int64.zero⟩, [], 0, none⟩ :
        Node (panicBox Unit) Nat) [1, 2] [4, 5] 3
      ⟨(), Tuple.Int64.zero, ⟨3, by decide⟩, ⟨2, by decide⟩⟩ "test failure via panic" 3
      rfl rfl (by decide) rfl rfl).2.2.2.1⟩

theorem rewire_recovery_witness :
    scenarioPanicked =
      ⟨[⟨"source", .Source, .TSRunning, none, [], 0, none⟩,
        ⟨"box1", .Box, .TSStopped,
          some ⟨(), Tuple.Int64.zero, Tuple.Int64.one, Tuple.Int64.one⟩, [], 1,
          some "test failure via panic"⟩,
        ⟨"sink", .Sink, .TSRunning, none, [], 0, none⟩],
       [("source", "box1"), ("box1", "sink")]⟩ ∧
    (Topology.emitAll (panicBox.Process forwardBox)
      (Topology.Input scenarioPanicked "sink" "source").1 "source" [6, 7, 8]).lookup "sink" =
      some ⟨"sink", .Sink, .TSRunning, none, [6, 7, 8], 0, none⟩ :=
  ⟨by decide,
    congrArg (fun tp => Topology.lookup tp "sink")
      ((rewire_recovery (panicBox.Process forwardBox)
        ⟨"source", .Source, .TSRunning, none, [], 0, none⟩
        ⟨"box1", .Box, .TSStopped,
          some ⟨(), Tuple.Int64.zero, Tuple.Int64.one, Tuple.Int64.one⟩, [], 1,
          some "test failure via panic"⟩
        ⟨"sink", .Sink, .TSRunning, none, [], 0, none⟩
        (by decide) rfl rfl (by decide) rfl (by decide) rfl rfl).2 [6, 7, 8])⟩

end Core
